import Mathlib

/-!
Verification of the mini agent core (minisweagent/agents/default.py):
a shallow embedding of the agent state machine, its action parser
(the regex over fenced bash blocks), the executor's timeout and
encoding normalization, the Jinja-style template renderer with strict
undefined-variable resolution, and the run loop's exception taxonomy.
-/

namespace MiniAgent

/-! ## Python string primitives -/

/-- Python whitespace predicate (str.isspace and the regex class for
whitespace), covering the ASCII set plus the Unicode whitespace
codepoints CPython treats as space. -/
def pyIsSpace (c : Char) : Bool :=
  c == ' ' || c == '\t' || c == '\n' || c == '\r' || c == '\x0b' || c == '\x0c' ||
  c.toNat == 0x1c || c.toNat == 0x1d || c.toNat == 0x1e || c.toNat == 0x1f ||
  c.toNat == 0x85 || c.toNat == 0xa0 || c.toNat == 0x1680 ||
  (0x2000 ≤ c.toNat && c.toNat ≤ 0x200a) ||
  c.toNat == 0x2028 || c.toNat == 0x2029 || c.toNat == 0x202f ||
  c.toNat == 0x205f || c.toNat == 0x3000

/-- str.lstrip() on a character list. -/
def pyLstripL (l : List Char) : List Char := l.dropWhile pyIsSpace

/-- str.rstrip() on a character list. -/
def pyRstripL (l : List Char) : List Char := (l.reverse.dropWhile pyIsSpace).reverse

/-- str.strip(). -/
def pyStrip (s : String) : String := String.mk (pyRstripL (pyLstripL s.data))

/-- The line-boundary characters of str.splitlines. -/
def isLineBreak (c : Char) : Bool :=
  c == '\n' || c == '\r' || c == '\x0b' || c == '\x0c' ||
  c.toNat == 0x1c || c.toNat == 0x1d || c.toNat == 0x1e ||
  c.toNat == 0x85 || c.toNat == 0x2028 || c.toNat == 0x2029

/-- Worker for str.splitlines(keepends=True); acc holds the current
line reversed. -/
def splitlinesGo (acc : List Char) : List Char → List (List Char)
  | [] => if acc.isEmpty then [] else [acc.reverse]
  | '\r' :: '\n' :: rest => (acc.reverse ++ ['\r', '\n']) :: splitlinesGo [] rest
  | c :: rest =>
    if isLineBreak c then (acc.reverse ++ [c]) :: splitlinesGo [] rest
    else splitlinesGo (c :: acc) rest

/-- str.splitlines(keepends=True). -/
def splitlinesKeep (l : List Char) : List (List Char) := splitlinesGo [] l

/-! ## The findall model for the pattern matching fenced bash blocks

The source uses re.findall with a raw pattern that matches a literal
three-backtick bash opener, then greedy whitespace ending at a
newline, then a lazily captured body (DOTALL), then a newline and
three closing backticks.  We model the backtracking behaviour
directly: the greedy whitespace part tries the newlines of the
maximal whitespace run from last to first; for each choice the lazy
body ends at the first later occurrence of a newline followed by
three backticks. -/

/-- Find the first occurrence of pat in a list; returns the part
before the occurrence and the part after it. -/
def splitAtSub (pat : List Char) : List Char → Option (List Char × List Char)
  | [] => if pat.isEmpty then some ([], []) else none
  | c :: rest =>
    if pat.isPrefixOf (c :: rest) then some ([], (c :: rest).drop pat.length)
    else
      match splitAtSub pat rest with
      | some (b, a) => some (c :: b, a)
      | none => none

theorem splitAtSub_length (pat : List Char) :
    ∀ s b a, splitAtSub pat s = some (b, a) →
      b.length + pat.length + a.length = s.length := by
  intro s
  induction s with
  | nil =>
    intro b a h
    unfold splitAtSub at h
    by_cases hp : pat.isEmpty
    · rw [if_pos hp] at h
      simp only [Option.some.injEq, Prod.mk.injEq] at h
      obtain ⟨hb, ha⟩ := h
      subst hb
      subst ha
      simp [List.isEmpty_iff.mp hp]
    · rw [if_neg hp] at h
      cases h
  | cons c rest ih =>
    intro b a h
    unfold splitAtSub at h
    by_cases hp : pat.isPrefixOf (c :: rest)
    · rw [if_pos hp] at h
      simp only [Option.some.injEq, Prod.mk.injEq] at h
      obtain ⟨hb, ha⟩ := h
      subst hb
      subst ha
      have hpre : pat <+: (c :: rest) := List.isPrefixOf_iff_prefix.mp hp
      have hle : pat.length ≤ (c :: rest).length := hpre.length_le
      simp only [List.length_cons] at hle
      simp only [List.length_nil, List.length_drop, List.length_cons]
      omega
    · rw [if_neg hp] at h
      cases hr : splitAtSub pat rest with
      | none => rw [hr] at h; cases h
      | some p =>
        obtain ⟨b', a'⟩ := p
        rw [hr] at h
        simp only [Option.some.injEq, Prod.mk.injEq] at h
        obtain ⟨hb, ha⟩ := h
        subst hb
        subst ha
        have := ih b' a' hr
        simp only [List.length_cons]
        omega

/-- Positions of the newline characters in a list. -/
def nlPositions (l : List Char) : List Nat :=
  (l.enum.filter (fun p => p.2 == '\n')).map (fun p => p.1)

/-- The closing delimiter: a newline followed by three backticks. -/
def nlTicks : List Char := "\n```".data

/-- Try the candidate whitespace splits (positions of a newline) in
order; for each, the capture runs up to the first occurrence of the
closing delimiter after that newline. -/
def firstHit (t : List Char) : List Nat → Option (List Char × List Char)
  | [] => none
  | p :: ps =>
    match splitAtSub nlTicks (t.drop (p + 1)) with
    | some (b, a) => some (b, a)
    | none => firstHit t ps

theorem firstHit_length :
    ∀ ps (t cap after : _), firstHit t ps = some (cap, after) →
      after.length < t.length := by
  intro ps
  induction ps with
  | nil => intro t cap after h; cases h
  | cons p ps ih =>
    intro t cap after h
    unfold firstHit at h
    cases hs : splitAtSub nlTicks (t.drop (p + 1)) with
    | none => rw [hs] at h; exact ih t cap after h
    | some q =>
      obtain ⟨b, a⟩ := q
      rw [hs] at h
      simp only [Option.some.injEq, Prod.mk.injEq] at h
      obtain ⟨hb, ha⟩ := h
      subst hb
      subst ha
      have hlen := splitAtSub_length nlTicks (t.drop (p + 1)) b a hs
      have h4 : nlTicks.length = 4 := rfl
      rw [h4] at hlen
      have hd : (t.drop (p + 1)).length = t.length - (p + 1) := List.length_drop _ _
      omega

/-- Match the part of the pattern after the literal opener, at the
current position: greedy whitespace up to a newline, then the lazy
capture up to the closing delimiter.  Returns the capture and the
remainder of the input after the whole match. -/
def tryStarts (t : List Char) : Option (List Char × List Char) :=
  firstHit t ((nlPositions (t.takeWhile pyIsSpace)).reverse)

theorem tryStarts_length (t cap after : List Char) :
    tryStarts t = some (cap, after) → after.length < t.length :=
  firstHit_length _ t cap after

/-- The literal opener of a fenced bash block. -/
def bashOpen : List Char := "```bash".data

/-- re.findall of the fenced-bash-block pattern over the content:
scan left to right, and after a match resume after its end.  The
explicit fuel only makes the recursion structural (so that concrete
instances evaluate); every step strictly shortens the input, so any
fuel above the input length computes the same scan, as
findallBashGo_fuel below proves. -/
def findallBashGo : Nat → List Char → List (List Char)
  | 0, _ => []
  | _ + 1, [] => []
  | f + 1, c :: rest =>
    if bashOpen.isPrefixOf (c :: rest) then
      match tryStarts ((c :: rest).drop 7) with
      | some (cap, after) => cap :: findallBashGo f after
      | none => findallBashGo f rest
    else findallBashGo f rest

/-- The scan with always-sufficient fuel. -/
def findallBash (s : List Char) : List (List Char) := findallBashGo (s.length + 1) s

theorem findallBashGo_fuel :
    ∀ f1 f2 s, s.length < f1 → s.length < f2 →
      findallBashGo f1 s = findallBashGo f2 s := by
  intro f1
  induction f1 with
  | zero => intro f2 s h1; omega
  | succ f ih =>
    intro f2 s h1 h2
    cases s with
    | nil =>
      cases f2 with
      | zero => omega
      | succ g => rfl
    | cons c rest =>
      cases f2 with
      | zero => omega
      | succ g =>
        simp only [List.length_cons] at h1 h2
        show findallBashGo (f + 1) (c :: rest) = findallBashGo (g + 1) (c :: rest)
        unfold findallBashGo
        by_cases hp : bashOpen.isPrefixOf (c :: rest)
        · rw [if_pos hp, if_pos hp]
          cases ht : tryStarts ((c :: rest).drop 7) with
          | none => exact ih g rest (by omega) (by omega)
          | some q =>
            obtain ⟨cap, after⟩ := q
            have hlt := tryStarts_length _ _ _ ht
            have hd : ((c :: rest).drop 7).length = (c :: rest).length - 7 :=
              List.length_drop _ _
            simp only [List.length_cons] at hlt hd
            dsimp only
            rw [ih g after (by omega) (by omega)]
        · rw [if_neg hp, if_neg hp]
          exact ih g rest (by omega) (by omega)

/-- The list of candidate actions in a response content, as in
parse_action's findall call. -/
def findActions (content : String) : List String :=
  (findallBash content.data).map String.mk

/-! ## Python values and dictionaries

Response and output dictionaries hold heterogeneous values.  A Dict
is an association list; lookup takes the latest binding, so that a
dict display such as the one in parse_action, which lists the new
action binding first and then splats the response, is modelled by
consing the new binding in front of the response list. -/

inductive Value where
  | str (s : String)
  | int (n : Int)
  | rat (q : Rat)
  | bytes (bs : List Nat)
  | list (xs : List Value)
  | dict (d : List (String × Value))

abbrev Dict := List (String × Value)

/-- Dictionary lookup; the latest binding for a key wins, matching
the override semantics of dict displays and unions. -/
def dictGet : Dict → String → Option Value
  | [], _ => none
  | (k', v) :: rest, k =>
    match dictGet rest k with
    | some w => some w
    | none => if k' = k then some v else none

/-- In-place update of an existing key (item assignment). -/
def dictSet (d : Dict) (k : String) (v : Value) : Dict :=
  d.map (fun kv => if kv.1 = k then (k, v) else kv)

/-- Remove a key (used when keyword splatting consumes a key). -/
def dictRemove (d : Dict) (k : String) : Dict :=
  d.filter (fun kv => kv.1 != k)

theorem dictGet_append_some {l2 : Dict} {k : String} {v : Value} (l1 : Dict)
    (h : dictGet l2 k = some v) : dictGet (l1 ++ l2) k = some v := by
  induction l1 with
  | nil => simpa using h
  | cons kv rest ih =>
    obtain ⟨k', w⟩ := kv
    show dictGet ((k', w) :: (rest ++ l2)) k = some v
    unfold dictGet
    rw [ih]

theorem dictGet_append_none {l2 : Dict} {k : String} (l1 : Dict)
    (h : dictGet l2 k = none) : dictGet (l1 ++ l2) k = dictGet l1 k := by
  induction l1 with
  | nil => simpa using h
  | cons kv rest ih =>
    obtain ⟨k', w⟩ := kv
    show dictGet ((k', w) :: (rest ++ l2)) k = dictGet ((k', w) :: rest) k
    unfold dictGet
    rw [ih]

theorem dictGet_mem {d : Dict} {k : String} {v : Value}
    (h : dictGet d k = some v) : ∃ w, (k, w) ∈ d := by
  induction d generalizing v with
  | nil => cases h
  | cons kv rest ih =>
    obtain ⟨k', w⟩ := kv
    unfold dictGet at h
    cases hr : dictGet rest k with
    | some u =>
      obtain ⟨w', hw⟩ := ih hr
      exact ⟨w', List.mem_cons_of_mem _ hw⟩
    | none =>
      rw [hr] at h
      by_cases hk : k' = k
      · subst hk
        exact ⟨w, List.mem_cons_self _ _⟩
      · rw [if_neg hk] at h
        cases h

mutual
/-- Python repr() of a value (str uses repr for members of
containers); float formatting is approximated by rational printing,
and is never relied on by the theorems below. -/
def pyReprV : Value → String
  | .str s => "\x27" ++ s ++ "\x27"
  | .int n => toString n
  | .rat q => toString q
  | .bytes bs => "b\x27" ++ String.mk (bs.map Char.ofNat) ++ "\x27"
  | .list xs => "[" ++ pyReprSeq xs ++ "]"
  | .dict d => "\x7b" ++ pyReprEntries d ++ "\x7d"
def pyReprSeq : List Value → String
  | [] => ""
  | [v] => pyReprV v
  | v :: vs => pyReprV v ++ ", " ++ pyReprSeq vs
def pyReprEntries : List (String × Value) → String
  | [] => ""
  | [(k, v)] => "\x27" ++ k ++ "\x27: " ++ pyReprV v
  | (k, v) :: rest => "\x27" ++ k ++ "\x27: " ++ pyReprV v ++ ", " ++ pyReprEntries rest
end

/-- Python str() of a value. -/
def pyStrV : Value → String
  | .str s => s
  | v => pyReprV v

/-! ## Templates and the strict renderer

Config templates are embedded structurally: a template is a sequence
of literal pieces, variable substitutions, and single-key
subscripted substitutions (the timeout template subscripts the
action dict).  Rendering uses strict undefined resolution: an
undefined name is a fatal error, not a blank. -/

inductive TItem where
  | lit (s : String)
  | var (name : String)
  | varIdx (name : String) (key : String)

abbrev Tmpl := List TItem

/-- Fatal conditions: programming or configuration defects that the
agent loop never catches. -/
inductive Fatal where
  | undefinedVar (n : String)
  | badIndex (n : String)
  | keyError (k : String)
  | duplicateKwarg (k : String)
  | multipleValues (k : String)
  | missingArg (k : String)
  | attrError (k : String)

/-- Render a template against a variable context; referencing an
undefined variable (or subscripting a missing key or a non-dict) is
a fatal templating error. -/
def renderTmpl : Tmpl → Dict → Except Fatal String
  | [], _ => .ok ""
  | (.lit s) :: rest, ctx =>
    match renderTmpl rest ctx with
    | .ok r => .ok (s ++ r)
    | .error f => .error f
  | (.var n) :: rest, ctx =>
    match dictGet ctx n with
    | some v =>
      match renderTmpl rest ctx with
      | .ok r => .ok (pyStrV v ++ r)
      | .error f => .error f
    | none => .error (.undefinedVar n)
  | (.varIdx n k) :: rest, ctx =>
    match dictGet ctx n with
    | some (.dict d) =>
      match dictGet d k with
      | some v =>
        match renderTmpl rest ctx with
        | .ok r => .ok (pyStrV v ++ r)
        | .error f => .error f
      | none => .error (.keyError k)
    | some _ => .error (.badIndex n)
    | none => .error (.undefinedVar n)

/-- The template source text, for the config-as-dict view of the
agent configuration (asdict turns each template field back into its
string form). -/
def tmplSrc (t : Tmpl) : String :=
  t.foldr (fun item acc =>
    (match item with
     | .lit s => s
     | .var n => "\x7b\x7b" ++ n ++ "\x7d\x7d"
     | .varIdx n k => "\x7b\x7b" ++ n ++ "[\x27" ++ k ++ "\x27]\x7d\x7d") ++ acc) ""

/-! ## Agent configuration -/

structure AgentConfig where
  system_template : Tmpl
  instance_template : Tmpl
  timeout_template : Tmpl
  format_error_template : Tmpl
  action_observation_template : Tmpl
  step_limit : Int
  cost_limit : Rat

/-- The default configuration of the source. -/
def defaultConfig : AgentConfig where
  system_template := [.lit "你是一个可以完成任何任务的助手。"]
  instance_template :=
    [.lit "你的任务：", .var "task",
     .lit "。请用三反引号回复一个shell命令。 要完成任务，shell命令输出的第一行必须是\x27COMPLETE_TASK_AND_SUBMIT_FINAL_OUTPUT\x27。"]
  timeout_template :=
    [.lit "上一个命令 <command>", .varIdx "action" "action",
     .lit "</command> 已超时并被终止。\n命令的输出为：\n <output>\n", .var "output",
     .lit "\n</output>\n请尝试另一个命令，并确保避免需要交互式输入的命令。"]
  format_error_template := [.lit "请始终在三反引号中提供恰好一个操作。"]
  action_observation_template := [.lit "观察：", .var "output"]
  step_limit := 0
  cost_limit := 3

/-- dataclasses.asdict of the configuration. -/
def asdictConfig (c : AgentConfig) : Dict :=
  [("system_template", .str (tmplSrc c.system_template)),
   ("instance_template", .str (tmplSrc c.instance_template)),
   ("timeout_template", .str (tmplSrc c.timeout_template)),
   ("format_error_template", .str (tmplSrc c.format_error_template)),
   ("action_observation_template", .str (tmplSrc c.action_observation_template)),
   ("step_limit", .int c.step_limit),
   ("cost_limit", .rat c.cost_limit)]

/-! ## The exception taxonomy and external capabilities -/

/-- The agent's exception taxonomy: the two non-terminating signals,
the two terminating signals, and fatal defects that are not part of
the taxonomy and are never caught by the loop. -/
inductive Exc where
  | formatError (msg : String)
  | execTimeout (msg : String)
  | submitted (msg : String)
  | limits (msg : String)
  | fatal (f : Fatal)

/-- The payload subprocess.TimeoutExpired may carry: nothing, partial
bytes, or partial text. -/
inductive PyData where
  | bytes (bs : List Nat)
  | str (s : String)

/-- Outcome of the environment capability's execute call: a result
dict, a command-level timeout with optional partial output, or a
generic deadline-exceeded condition. -/
inductive EnvResult where
  | ok (d : Dict)
  | timeoutExpired (output : Option PyData)
  | timeoutErr

/-- The external capabilities the agent consumes, as deterministic
oracles: the model (template vars, and a query function mapping the
current call count, cost and conversation to a response plus updated
counters), the environment (template vars and execute), and the
encoding heuristics (chardet detection and replacement decoding;
replacement decoding is total because undecodable bytes are replaced,
never rejected). -/
structure Caps where
  envVars : Dict
  modelVars : Dict
  modelQuery : Int → Rat → List Dict → (Dict × Int × Rat)
  envExecute : Value → EnvResult
  detect : List Nat → Option String
  decodeReplace : String → List Nat → String

/-- The mutable agent state: configuration, conversation log,
run-scoped extra template variables, and the model's counters as the
agent observes them. -/
structure AgentState where
  config : AgentConfig
  messages : List Dict
  extras : Dict
  n_calls : Int
  cost : Rat

/-! ## Template context assembly (render_template) -/

/-- The merged template_vars dict: config fields, then environment
vars, then model vars; the union operator lets later sources
override earlier ones on key collision. -/
def tvOf (caps : Caps) (st : AgentState) : Dict :=
  asdictConfig st.config ++ caps.envVars ++ caps.modelVars

/-- Keyword-splat merging at a call site: unlike dict union, a key
occurring in two splatted groups is a TypeError (multiple values for
a keyword argument), not an override. -/
def groupMerge (acc g : Dict) : Except Fatal Dict :=
  match g.find? (fun kv => (dictGet acc kv.1).isSome) with
  | some kv => .error (.duplicateKwarg kv.1)
  | none => .ok (acc ++ g)

/-- The context render_template hands to the renderer: the explicit
call kwargs, the merged template_vars, and the run-scoped extras,
splatted in that order at the call site. -/
def buildCtx (caps : Caps) (st : AgentState) (kwargs : Dict) : Except Fatal Dict :=
  match groupMerge kwargs (tvOf caps st) with
  | .error f => .error f
  | .ok a => groupMerge a st.extras

/-- render_template: build the context and render strictly. -/
def render_template (caps : Caps) (st : AgentState) (t : Tmpl) (kwargs : Dict) :
    Except Fatal String :=
  match buildCtx caps st kwargs with
  | .error f => .error f
  | .ok ctx => renderTmpl t ctx

/-! ## Messages and the agent operations -/

/-- A role/content message as built by add_message. -/
def mkMessage (role : String) (content : Value) : Dict :=
  [("role", .str role), ("content", content)]

/-- Append the message of a caught signal to the log as a user
message. -/
def appendUser (st : AgentState) (m : String) : AgentState :=
  { st with messages := st.messages ++ [mkMessage "user" (.str m)] }

/-- add_message called with a positional role and a splatted response
dict: the content parameter is bound from the response's content key
(missing key is a TypeError), a role key in the response is a
multiple-values TypeError, and all remaining keys ride along. -/
def addMessageKw (role : String) (resp : Dict) : Except Fatal Dict :=
  if (dictGet resp "role").isSome then .error (.multipleValues "role")
  else
    match dictGet resp "content" with
    | none => .error (.missingArg "content")
    | some c => .ok ([("role", Value.str role), ("content", c)] ++ dictRemove resp "content")

/-- query(): check the step and cost limits before contacting the
model (a positive limit reached or exceeded raises LimitsExceeded
with an empty message and no model call); otherwise query the model,
append the assistant response to the log, and return it.  An error
carries the state as mutated up to the raise point. -/
def query (caps : Caps) (st : AgentState) :
    Except (Exc × AgentState) (Dict × AgentState) :=
  if (0 < st.config.step_limit ∧ st.config.step_limit ≤ st.n_calls) ∨
     (0 < st.config.cost_limit ∧ st.config.cost_limit ≤ st.cost) then
    .error (.limits "", st)
  else
    match caps.modelQuery st.n_calls st.cost st.messages with
    | (resp, n', c') =>
      let st1 : AgentState := { st with n_calls := n', cost := c' }
      match addMessageKw "assistant" resp with
      | .error f => .error (.fatal f, st1)
      | .ok md => .ok (resp, { st1 with messages := st1.messages ++ [md] })

/-- parse_action: find the fenced bash blocks of the response
content; exactly one match yields the action dict (the trimmed
command first, then the splatted response, whose own keys override);
otherwise the format-error template is rendered with the found
candidates and a FormatError raised. -/
def parse_action (caps : Caps) (st : AgentState) (response : Dict) :
    Except Exc Dict :=
  match dictGet response "content" with
  | some (.str content) =>
    (match findActions content with
     | [a] => .ok (("action", Value.str (pyStrip a)) :: response)
     | acts =>
       match render_template caps st st.config.format_error_template
           [("actions", Value.list (acts.map Value.str))] with
       | .ok m => .error (.formatError m)
       | .error f => .error (.fatal f))
  | some _ => .error (.fatal (.attrError "content"))
  | none => .error (.fatal (.keyError "content"))

/-- The sentinel strings that mark task completion. -/
def sentinels : List String :=
  ["MINI_SWE_AGENT_FINAL_OUTPUT", "COMPLETE_TASK_AND_SUBMIT_FINAL_OUTPUT"]

/-- has_finished on the output text: left-strip, split into lines
keeping the terminators, and if the first line strips to a sentinel,
raise Submitted carrying the joined remaining lines. -/
def has_finished_str (s : String) : Except Exc Unit :=
  match splitlinesKeep (pyLstripL s.data) with
  | [] => .ok ()
  | l0 :: rest =>
    if sentinels.contains (pyStrip (String.mk l0)) then
      .error (.submitted (String.join (rest.map String.mk)))
    else .ok ()

/-- has_finished on the output dict: the output key defaults to the
empty string when absent; a non-string value would fail the lstrip
attribute access. -/
def has_finished (d : Dict) : Except Exc Unit :=
  match dictGet d "output" with
  | some (.str s) => has_finished_str s
  | none => has_finished_str ""
  | some _ => .error (.fatal (.attrError "lstrip"))

/-- The partial output recovered from a command-level timeout: a
falsy payload (absent, empty bytes, empty text) yields the empty
string; partial bytes are decoded with the detected encoding
(defaulting to utf-8 when detection is inconclusive) and replacement
fallback; partial text passes through str().  The source's inner
except-clause for a decode error is unreachable, because decoding
with replacement never raises one. -/
def timeoutOutputOf (caps : Caps) (po : Option PyData) : String :=
  match po with
  | none => ""
  | some (.bytes []) => ""
  | some (.str "") => ""
  | some (.bytes bs) => caps.decodeReplace ((caps.detect bs).getD "utf-8") bs
  | some (.str s) => s

/-- execute_action: run the command through the environment; a bytes
output is decoded heuristically with replacement fallback; both
timeout conditions are normalized to ExecutionTimeoutError with the
timeout template rendered over the failed action and the recovered
partial output; finally has_finished inspects the output for the
completion sentinel. -/
def execute_action (caps : Caps) (st : AgentState) (action : Dict) :
    Except Exc Dict :=
  match dictGet action "action" with
  | none => .error (.fatal (.keyError "action"))
  | some cmd =>
    match caps.envExecute cmd with
    | .ok d =>
      (match dictGet d "output" with
       | none => .error (.fatal (.keyError "output"))
       | some (.bytes bs) =>
         let d' := dictSet d "output"
           (Value.str (caps.decodeReplace ((caps.detect bs).getD "utf-8") bs))
         (match has_finished d' with
          | .error e => .error e
          | .ok _ => .ok d')
       | some _ =>
         (match has_finished d with
          | .error e => .error e
          | .ok _ => .ok d))
    | .timeoutExpired po =>
      (match render_template caps st st.config.timeout_template
          [("action", Value.dict action), ("output", Value.str (timeoutOutputOf caps po))] with
       | .ok m => .error (.execTimeout m)
       | .error f => .error (.fatal f))
    | .timeoutErr =>
      (match render_template caps st st.config.timeout_template
          [("action", Value.dict action), ("output", Value.str "")] with
       | .ok m => .error (.execTimeout m)
       | .error f => .error (.fatal f))

/-- get_observation: parse, execute, render the observation template
with the whole output dict, and append it as a user message. -/
def get_observation (caps : Caps) (st : AgentState) (response : Dict) :
    Except (Exc × AgentState) (Dict × AgentState) :=
  match parse_action caps st response with
  | .error e => .error (e, st)
  | .ok action =>
    match execute_action caps st action with
    | .error e => .error (e, st)
    | .ok output =>
      match render_template caps st st.config.action_observation_template
          [("output", Value.dict output)] with
      | .error f => .error (.fatal f, st)
      | .ok obs => .ok (output, appendUser st obs)

/-- step(): one query-observe cycle. -/
def step (caps : Caps) (st : AgentState) :
    Except (Exc × AgentState) (Dict × AgentState) :=
  match query caps st with
  | .error es => .error es
  | .ok (resp, st1) => get_observation caps st1 resp

/-- The while-loop of run, with explicit fuel (the source loop is
unbounded); none means the fuel ran out with the loop still going.
Non-terminating signals append their message as a user message and
continue; terminating signals append their message and return the
signal's type name with the message; anything else propagates as an
uncaught fatal error. -/
def runLoop (caps : Caps) : Nat → AgentState →
    Except Fatal (Option ((String × String) × AgentState))
  | 0, _ => .ok none
  | n + 1, st =>
    match step caps st with
    | .ok (_, st') => runLoop caps n st'
    | .error (.formatError m, st') => runLoop caps n (appendUser st' m)
    | .error (.execTimeout m, st') => runLoop caps n (appendUser st' m)
    | .error (.submitted m, st') => .ok (some (("Submitted", m), appendUser st' m))
    | .error (.limits m, st') => .ok (some (("LimitsExceeded", m), appendUser st' m))
    | .error (.fatal f, _) => .error f

/-- The initialization of run: seed the run-scoped extras with the
task and the caller's keyword data, reset the log, and append the
rendered system and instance messages. -/
def initRun (caps : Caps) (st : AgentState) (task : String) (kwargs : Dict) :
    Except Fatal AgentState :=
  let st0 : AgentState :=
    { st with extras := st.extras ++ [("task", Value.str task)] ++ kwargs, messages := [] }
  match render_template caps st0 st0.config.system_template [] with
  | .error f => .error f
  | .ok sysm =>
    let st1 := { st0 with messages := st0.messages ++ [mkMessage "system" (Value.str sysm)] }
    match render_template caps st1 st1.config.instance_template [] with
    | .error f => .error f
    | .ok instm =>
      .ok { st1 with messages := st1.messages ++ [mkMessage "user" (Value.str instm)] }

/-- run(): initialize, then drive the loop. -/
def run (caps : Caps) (st : AgentState) (task : String) (kwargs : Dict) (fuel : Nat) :
    Except Fatal (Option ((String × String) × AgentState)) :=
  match initRun caps st task kwargs with
  | .error f => .error f
  | .ok st' => runLoop caps fuel st'

/-! ## Concrete fixtures used by the witnesses below -/

/-- A fresh agent on the default config. -/
def stA : AgentState :=
  { config := defaultConfig, messages := [], extras := [], n_calls := 0, cost := 0 }

/-- A base capability set: a model that answers with no code block,
an environment with empty output, identity-style decoding. -/
def capsA : Caps :=
  { envVars := [], modelVars := [],
    modelQuery := fun n c _ => ([("content", Value.str "no code")], n + 1, c),
    envExecute := fun _ => .ok [("output", Value.str "")],
    detect := fun _ => none,
    decodeReplace := fun _ bs => String.mk (bs.map Char.ofNat) }

/-- The default format-error message. -/
def fmtMsg : String := "请始终在三反引号中提供恰好一个操作。"

/-- The state after the first model call of capsA on stA. -/
def stApost : AgentState :=
  { stA with messages := [mkMessage "assistant" (Value.str "no code")], n_calls := 1 }

/-- A model that answers with one block whose execution submits. -/
def capsB : Caps :=
  { capsA with
    modelQuery := fun n c _ => ([("content", Value.str "```bash\nok\n```")], n + 1, c),
    envExecute := fun _ =>
      .ok [("output", Value.str "COMPLETE_TASK_AND_SUBMIT_FINAL_OUTPUT\nAnswer: 42")] }

/-- The state after the first model call of capsB on stA. -/
def stBpost : AgentState :=
  { stA with messages := [mkMessage "assistant" (Value.str "```bash\nok\n```")], n_calls := 1 }

/-- A run-scoped extra colliding with a config field name. -/
def stCollide : AgentState := { stA with extras := [("step_limit", Value.str "boom")] }

/-- Env and model capabilities supplying the same template var. -/
def capsM : Caps :=
  { capsA with envVars := [("who", Value.str "env")], modelVars := [("who", Value.str "model")] }

/-- A run-scoped extra colliding with a capability template var. -/
def stCol2 : AgentState := { stA with extras := [("who", Value.str "run")] }

/-- Capabilities where one key is in both env and model vars and a
second key is supplied by the environment only. -/
def capsM2 : Caps :=
  { capsA with
    envVars := [("who", Value.str "env"), ("site", Value.str "envsite")],
    modelVars := [("who", Value.str "model")] }

/-- A state whose positive step limit is already exhausted. -/
def stLim : AgentState :=
  { stA with config := { defaultConfig with step_limit := 1 }, n_calls := 5 }

/-- Both limits set non-positive. -/
def cfgNeg : AgentConfig := { defaultConfig with step_limit := -1, cost_limit := -1 }

/-- Non-positive limits with huge counters. -/
def stNeg : AgentState :=
  { stA with config := cfgNeg, n_calls := 1000000, cost := 1000000 }

/-- A config whose timeout template is just the output variable. -/
def cfgT : AgentConfig := { defaultConfig with timeout_template := [.var "output"] }

/-- stA under cfgT. -/
def stT : AgentState := { stA with config := cfgT }

/-- A parsed action dict. -/
def act3 : Dict := [("action", Value.str "sleep 99")]

/-- An environment whose command times out with partial bytes. -/
def capsT : Caps := { capsA with envExecute := fun _ => .timeoutExpired (some (.bytes [104, 105])) }

/-- An environment raising the generic deadline condition. -/
def capsT2 : Caps := { capsA with envExecute := fun _ => .timeoutErr }

/-- An environment returning binary output. -/
def capsC : Caps := { capsA with envExecute := fun _ => .ok [("output", Value.bytes [104, 105])] }

/-- A model answering with a block, an environment answering text. -/
def capsD : Caps :=
  { capsA with
    modelQuery := fun n c _ => ([("content", Value.str "```bash\nls\n```")], n + 1, c),
    envExecute := fun _ => .ok [("output", Value.str "files")] }

/-- A config whose observation template references an undefined
variable. -/
def cfgBadObs : AgentConfig := { defaultConfig with action_observation_template := [.var "zzz"] }

/-- stA under cfgBadObs. -/
def stE : AgentState := { stA with config := cfgBadObs }

/-- The state after the first model call of capsD on stE. -/
def stE1 : AgentState :=
  { stE with messages := [mkMessage "assistant" (Value.str "```bash\nls\n```")], n_calls := 1 }

/-- A response carrying its own action field next to one block. -/
def respX : Dict :=
  [("content", Value.str "```bash\nls\n```"), ("action", Value.str "overridden")]

/-- A response with one block and no action field. -/
def respA1 : Dict := [("content", Value.str "```bash\n ls \n```")]

/-- A response with no block. -/
def respB1 : Dict := [("content", Value.str "no code")]

/-- A response with one block and a non-string action field. -/
def respY : Dict := [("content", Value.str "```bash\npwd\n```"), ("action", Value.int 7)]

/-- An output whose first line is the current sentinel. -/
def dSub : Dict := [("output", Value.str "COMPLETE_TASK_AND_SUBMIT_FINAL_OUTPUT\nAnswer: 42")]

/-- An output that is only the legacy sentinel, with no remainder. -/
def dSub2 : Dict := [("output", Value.str "MINI_SWE_AGENT_FINAL_OUTPUT")]

/-- An environment returning dSub. -/
def capsSub : Caps := { capsA with envExecute := fun _ => .ok dSub }

/-! ## Helper lemmas about dictionary update -/

theorem dictSet_get_none {d : Dict} {k : String} (w : Value)
    (h : dictGet d k = none) : dictGet (dictSet d k w) k = none := by
  induction d with
  | nil => rfl
  | cons kv rest ih =>
    obtain ⟨k', v'⟩ := kv
    unfold dictGet at h
    cases hr : dictGet rest k with
    | some u => rw [hr] at h; cases h
    | none =>
      rw [hr] at h
      by_cases hk : k' = k
      · rw [if_pos hk] at h; cases h
      · rw [if_neg hk] at h
        simp only [dictSet, List.map_cons, if_neg hk]
        unfold dictGet
        rw [show dictGet (List.map (fun kv => if kv.1 = k then (k, w) else kv) rest) k = none from ih hr]
        rw [if_neg hk]

theorem dictSet_get_some {d : Dict} {k : String} {v : Value} (w : Value)
    (h : dictGet d k = some v) : dictGet (dictSet d k w) k = some w := by
  induction d generalizing v with
  | nil => cases h
  | cons kv rest ih =>
    obtain ⟨k', v'⟩ := kv
    unfold dictGet at h
    cases hr : dictGet rest k with
    | some u =>
      have htail := ih hr
      by_cases hk : k' = k
      · simp only [dictSet, List.map_cons, if_pos hk]
        unfold dictGet
        rw [show dictGet (List.map (fun kv => if kv.1 = k then (k, w) else kv) rest) k = some w from htail]
      · simp only [dictSet, List.map_cons, if_neg hk]
        unfold dictGet
        rw [show dictGet (List.map (fun kv => if kv.1 = k then (k, w) else kv) rest) k = some w from htail]
    | none =>
      rw [hr] at h
      by_cases hk : k' = k
      · simp only [dictSet, List.map_cons, if_pos hk]
        unfold dictGet
        rw [show dictGet (List.map (fun kv => if kv.1 = k then (k, w) else kv) rest) k = none from dictSet_get_none w hr]
        rw [if_pos rfl]
      · rw [if_neg hk] at h; cases h

/-! ## Claim theorems -/

/-- C1 counterexample: the claim fails as universally stated.  For a
response whose content has exactly one fenced shell block but which
also carries its own action field, parse_action succeeds, yet the
resulting Action's action field is the response's own value, not the
trimmed block content. -/
theorem parse_action_override_cex :
    parse_action capsA stA respX = .ok (("action", Value.str "ls") :: respX) ∧
    dictGet (("action", Value.str "ls") :: respX) "action" = some (Value.str "overridden") ∧
    ("overridden" : String) ≠ "ls" :=
  ⟨by rfl, by rfl, by decide⟩

/-- C1 (amended): for every response that does not itself carry an
action field, exactly one fenced shell block makes parse_action
return an Action whose action field is the block's content trimmed;
zero or two-or-more blocks make it raise FormatError with the
message rendered from the format-error template over the candidate
list, and ambiguity is never resolved by picking the first block. -/
theorem parse_action_spec (caps : Caps) (st : AgentState) (response : Dict)
    (content : String)
    (hc : dictGet response "content" = some (Value.str content)) :
    (∀ a, findActions content = [a] →
       parse_action caps st response = .ok (("action", Value.str (pyStrip a)) :: response) ∧
       (dictGet response "action" = none →
         dictGet (("action", Value.str (pyStrip a)) :: response) "action" =
           some (Value.str (pyStrip a)))) ∧
    (∀ m, (findActions content).length ≠ 1 →
       render_template caps st st.config.format_error_template
           [("actions", Value.list ((findActions content).map Value.str))] = .ok m →
       parse_action caps st response = .error (.formatError m)) := by
  constructor
  · intro a ha
    constructor
    · simp only [parse_action, hc, ha]
    · intro hno
      simp [dictGet, hno]
  · intro m hlen hr
    cases hfa : findActions content with
    | nil =>
      rw [hfa] at hr
      simp only [parse_action, hc, hfa, hr]
    | cons a tail =>
      cases tail with
      | nil => exact absurd (by rw [hfa]; rfl) hlen
      | cons b t2 =>
        rw [hfa] at hr
        simp only [parse_action, hc, hfa, hr]

/-- C1 witness: the one-block case returns the trimmed command, and
the zero-block case raises the rendered FormatError. -/
theorem parse_action_spec_witness :
    parse_action capsA stA respA1 = .ok (("action", Value.str "ls") :: respA1) ∧
    dictGet (("action", Value.str "ls") :: respA1) "action" = some (Value.str "ls") ∧
    parse_action capsA stA respB1 = .error (.formatError fmtMsg) :=
  ⟨((parse_action_spec capsA stA respA1 "```bash\n ls \n```" rfl).1 " ls " (by rfl)).1,
   ((parse_action_spec capsA stA respA1 "```bash\n ls \n```" rfl).1 " ls " (by rfl)).2 rfl,
   (parse_action_spec capsA stA respB1 "no code" rfl).2 fmtMsg (by decide) (by rfl)⟩

/-- C10: parse_action builds the literal mapping with the action
binding first and the original response fields spread afterwards, so
a response that itself contains an action key wins: the returned
Action's action field is the response's value, not the trimmed
fenced command. -/
theorem parse_action_response_wins (caps : Caps) (st : AgentState) (response : Dict)
    (content : String) (a : String) (v : Value)
    (hc : dictGet response "content" = some (Value.str content))
    (hone : findActions content = [a])
    (hv : dictGet response "action" = some v) :
    parse_action caps st response = .ok (("action", Value.str (pyStrip a)) :: response) ∧
    dictGet (("action", Value.str (pyStrip a)) :: response) "action" = some v := by
  constructor
  · simp only [parse_action, hc, hone]
  · simp only [dictGet, hv]

/-- C10 witness: a response with one block and its own action field
keeps the response's value as the action field. -/
theorem parse_action_response_wins_witness :
    parse_action capsA stA respY = .ok (("action", Value.str "pwd") :: respY) ∧
    dictGet (("action", Value.str "pwd") :: respY) "action" = some (Value.int 7) :=
  parse_action_response_wins capsA stA respY "```bash\npwd\n```" "pwd" (Value.int 7)
    rfl (by rfl) rfl

/-- C2: when the output's first non-blank line (the first line after
left-stripping) strips to one of the two sentinel strings,
has_finished raises Submitted carrying exactly the remaining lines
with their original terminators; the empty remainder gives the empty
message; and execute_action propagates this Submitted for an
environment result with that output. -/
theorem has_finished_submits (d : Dict) (s : String) (l0 : List Char)
    (rest : List (List Char))
    (h1 : dictGet d "output" = some (Value.str s))
    (h2 : splitlinesKeep (pyLstripL s.data) = l0 :: rest)
    (h3 : sentinels.contains (pyStrip (String.mk l0)) = true) :
    has_finished d = .error (.submitted (String.join (rest.map String.mk))) ∧
    (rest = [] → has_finished d = .error (.submitted "")) ∧
    (∀ caps st action cmd, dictGet action "action" = some cmd →
       caps.envExecute cmd = .ok d →
       execute_action caps st action =
         .error (.submitted (String.join (rest.map String.mk)))) := by
  have hmain : has_finished d = .error (.submitted (String.join (rest.map String.mk))) := by
    simp only [has_finished, h1, has_finished_str, h2, h3, if_true]
  refine ⟨hmain, ?_, ?_⟩
  · intro hrest
    subst hrest
    exact hmain
  · intro caps st action cmd hcmd henv
    simp only [execute_action, hcmd, henv, h1, hmain]

/-- C2 witness: concrete outputs with the current sentinel plus a
remainder, the legacy sentinel with empty remainder, and the
Submitted propagation through execute_action. -/
theorem has_finished_submits_witness :
    has_finished dSub = .error (.submitted "Answer: 42") ∧
    has_finished dSub2 = .error (.submitted "") ∧
    execute_action capsSub stA [("action", Value.str "make")] =
      .error (.submitted "Answer: 42") :=
  ⟨(has_finished_submits dSub "COMPLETE_TASK_AND_SUBMIT_FINAL_OUTPUT\nAnswer: 42"
      "COMPLETE_TASK_AND_SUBMIT_FINAL_OUTPUT\n".data ["Answer: 42".data]
      rfl (by rfl) (by rfl)).1,
   (has_finished_submits dSub2 "MINI_SWE_AGENT_FINAL_OUTPUT"
      "MINI_SWE_AGENT_FINAL_OUTPUT".data [] rfl (by rfl) (by rfl)).2.1 rfl,
   (has_finished_submits dSub "COMPLETE_TASK_AND_SUBMIT_FINAL_OUTPUT\nAnswer: 42"
      "COMPLETE_TASK_AND_SUBMIT_FINAL_OUTPUT\n".data ["Answer: 42".data]
      rfl (by rfl) (by rfl)).2.2 capsSub stA [("action", Value.str "make")]
      (Value.str "make") rfl rfl⟩

/-- Helper: when the limit condition is false, query never raises
LimitsExceeded (the remaining outcomes are the model response or a
fatal add_message defect). -/
theorem query_no_limits_aux (caps : Caps) (st : AgentState)
    (hcond : ¬ ((0 < st.config.step_limit ∧ st.config.step_limit ≤ st.n_calls) ∨
       (0 < st.config.cost_limit ∧ st.config.cost_limit ≤ st.cost))) :
    ∀ m st', query caps st ≠ .error (.limits m, st') := by
  intro m st' h
  simp only [query, if_neg hcond] at h
  cases ha : addMessageKw "assistant" (caps.modelQuery st.n_calls st.cost st.messages).1 with
  | error f => rw [ha] at h; simp at h
  | ok md => rw [ha] at h; simp at h

/-- C3: query raises LimitsExceeded, before any model call and with
the state untouched, exactly when a positive step limit is reached
by n_calls or a positive cost limit is reached by cost; with both
limits non-positive it never raises LimitsExceeded no matter how
large the counters are. -/
theorem query_limits_iff (caps : Caps) (st : AgentState) :
    (query caps st = .error (.limits "", st) ↔
      ((0 < st.config.step_limit ∧ st.config.step_limit ≤ st.n_calls) ∨
       (0 < st.config.cost_limit ∧ st.config.cost_limit ≤ st.cost))) ∧
    (st.config.step_limit ≤ 0 → st.config.cost_limit ≤ 0 →
      ∀ m st', query caps st ≠ .error (.limits m, st')) := by
  constructor
  · constructor
    · intro h
      by_cases hcond : ((0 < st.config.step_limit ∧ st.config.step_limit ≤ st.n_calls) ∨
          (0 < st.config.cost_limit ∧ st.config.cost_limit ≤ st.cost))
      · exact hcond
      · exact absurd h (query_no_limits_aux caps st hcond "" st)
    · intro hcond
      simp only [query, if_pos hcond]
  · intro hs hc
    apply query_no_limits_aux
    rintro (⟨h1, _⟩ | ⟨h1, _⟩)
    · omega
    · exact absurd h1 (not_lt.mpr hc)

/-- C3 witness: an exhausted positive step limit raises, and
non-positive limits never raise even with huge counters. -/
theorem query_limits_iff_witness :
    query capsA stLim = .error (.limits "", stLim) ∧
    query capsA stNeg ≠ .error (.limits "", stNeg) :=
  ⟨(query_limits_iff capsA stLim).1.mpr (by decide),
   (query_limits_iff capsA stNeg).2 (by decide) (by decide) "" stNeg⟩

/-- C4 counterexample: a run-scoped extra whose key collides with a
config field does not override it; the render call fails with a
duplicate-keyword TypeError instead of succeeding with the later
value. -/
theorem render_collision_cex :
    render_template capsA stCollide [TItem.var "step_limit"] [] =
      .error (.duplicateKwarg "step_limit") := by rfl

/-- Helper: when the template_vars union binds a key to a value, the
splatted groups merge cleanly, and no run-scoped extra collides,
rendering that key substitutes that value. -/
theorem render_tv_lookup (caps : Caps) (st : AgentState) (kwargs a : Dict)
    (k : String) (v : Value)
    (htv : dictGet (tvOf caps st) k = some v)
    (hg : groupMerge kwargs (tvOf caps st) = .ok a)
    (hf : st.extras.find? (fun kv => (dictGet a kv.1).isSome) = none) :
    render_template caps st [TItem.var k] kwargs = .ok (pyStrV v) := by
  have haeq : a = kwargs ++ tvOf caps st := by
    unfold groupMerge at hg
    cases hfind : (tvOf caps st).find? (fun kv => (dictGet kwargs kv.1).isSome) with
    | some kv => rw [hfind] at hg; cases hg
    | none => rw [hfind] at hg; injection hg with h; exact h.symm
  have hak : dictGet a k = some v := by
    rw [haeq]; exact dictGet_append_some _ htv
  have hex : dictGet st.extras k = none := by
    cases hx : dictGet st.extras k with
    | none => rfl
    | some w =>
      obtain ⟨w', hw⟩ := dictGet_mem hx
      have hnone := List.find?_eq_none.mp hf _ hw
      exact absurd (show (dictGet a k).isSome = true by rw [hak]; rfl) hnone
  have hctx : buildCtx caps st kwargs = .ok (a ++ st.extras) := by
    unfold buildCtx
    rw [hg]
    dsimp only
    simp only [groupMerge, hf]
  have hget : dictGet (a ++ st.extras) k = some v := by
    rw [dictGet_append_none _ hex]; exact hak
  simp only [render_template, hctx, renderTmpl, hget]
  rw [String.append_empty]

/-- C4 (amended): within template_vars the dict union does give
later-overrides semantics — a key supplied by the model capability
wins over the environment capability and the config fields, and a
key supplied by the environment capability but not the model wins
over the config fields — and rendering succeeds with that value when
the splatted groups are disjoint.  But a key present both in the
explicit call variables and in template_vars, or both in the
run-scoped extras and in the variables merged so far, is not an
override: the render call raises a duplicate-keyword TypeError. -/
theorem render_merge_amended (caps : Caps) (st : AgentState) (kwargs a : Dict) :
    (∀ k v, dictGet caps.modelVars k = some v →
       groupMerge kwargs (tvOf caps st) = .ok a →
       st.extras.find? (fun kv => (dictGet a kv.1).isSome) = none →
       render_template caps st [TItem.var k] kwargs = .ok (pyStrV v)) ∧
    (∀ k v, dictGet caps.modelVars k = none →
       dictGet caps.envVars k = some v →
       groupMerge kwargs (tvOf caps st) = .ok a →
       st.extras.find? (fun kv => (dictGet a kv.1).isSome) = none →
       render_template caps st [TItem.var k] kwargs = .ok (pyStrV v)) ∧
    (∀ kv t, (tvOf caps st).find? (fun kv' => (dictGet kwargs kv'.1).isSome) = some kv →
       render_template caps st t kwargs = .error (.duplicateKwarg kv.1)) ∧
    (∀ kv t, groupMerge kwargs (tvOf caps st) = .ok a →
       st.extras.find? (fun kv' => (dictGet a kv'.1).isSome) = some kv →
       render_template caps st t kwargs = .error (.duplicateKwarg kv.1)) := by
  refine ⟨?_, ?_, ?_, ?_⟩
  · intro k v hm hg hf
    exact render_tv_lookup caps st kwargs a k v (dictGet_append_some _ hm) hg hf
  · intro k v hmn he hg hf
    have htv : dictGet (tvOf caps st) k = some v := by
      unfold tvOf
      rw [dictGet_append_none _ hmn]
      exact dictGet_append_some _ he
    exact render_tv_lookup caps st kwargs a k v htv hg hf
  · intro kv t hf
    have hgm : groupMerge kwargs (tvOf caps st) = .error (.duplicateKwarg kv.1) := by
      unfold groupMerge
      rw [hf]
    have hctx : buildCtx caps st kwargs = .error (.duplicateKwarg kv.1) := by
      unfold buildCtx
      rw [hgm]
    simp only [render_template, hctx]
  · intro kv t hg hf
    have hctx : buildCtx caps st kwargs = .error (.duplicateKwarg kv.1) := by
      unfold buildCtx
      rw [hg]
      dsimp only
      simp only [groupMerge, hf]
    simp only [render_template, hctx]

/-- C4 witness: the model capability's value wins over the
environment capability's for the same key; an env-only key wins over
the config fields; an explicit call variable colliding with a
capability template var fails the render call; and so does a
run-scoped extra colliding with one. -/
theorem render_merge_amended_witness :
    render_template capsM stA [TItem.var "who"] [] = .ok "model" ∧
    render_template capsM2 stA [TItem.var "site"] [] = .ok "envsite" ∧
    render_template capsM2 stA [TItem.lit "x"] [("who", Value.str "call")] =
      .error (.duplicateKwarg "who") ∧
    render_template capsM stCol2 [TItem.lit "x"] [] = .error (.duplicateKwarg "who") :=
  ⟨(render_merge_amended capsM stA [] ([] ++ tvOf capsM stA)).1 "who"
      (Value.str "model") (by rfl) (by rfl) (by rfl),
   (render_merge_amended capsM2 stA [] ([] ++ tvOf capsM2 stA)).2.1 "site"
      (Value.str "envsite") (by rfl) (by rfl) (by rfl) (by rfl),
   (render_merge_amended capsM2 stA [("who", Value.str "call")] []).2.2.1
      ("who", Value.str "env") [TItem.lit "x"] (by rfl),
   (render_merge_amended capsM stCol2 [] ([] ++ tvOf capsM stCol2)).2.2.2
      ("who", Value.str "run") [TItem.lit "x"] (by rfl) (by rfl)⟩

/-- C5: the run loop turns every signal of the taxonomy into log
bookkeeping instead of letting it escape: a non-terminating signal
(FormatError, ExecutionTimeoutError) raised by step has its message
appended as a user message and the loop continues on the updated
state; a terminating signal (Submitted, LimitsExceeded) has its
message appended and the loop returns immediately with the signal's
type name and message.  (The loop's return type only leaves room for
fatal defects to escape, so none of the four signals ever reaches
the caller as an error.) -/
theorem run_signal_handling (caps : Caps) (st : AgentState) (fuel : Nat) :
    (∀ m st', step caps st = .error (.formatError m, st') →
       runLoop caps (fuel + 1) st = runLoop caps fuel (appendUser st' m)) ∧
    (∀ m st', step caps st = .error (.execTimeout m, st') →
       runLoop caps (fuel + 1) st = runLoop caps fuel (appendUser st' m)) ∧
    (∀ m st', step caps st = .error (.submitted m, st') →
       runLoop caps (fuel + 1) st = .ok (some (("Submitted", m), appendUser st' m))) ∧
    (∀ m st', step caps st = .error (.limits m, st') →
       runLoop caps (fuel + 1) st = .ok (some (("LimitsExceeded", m), appendUser st' m))) := by
  refine ⟨?_, ?_, ?_, ?_⟩ <;> intro m st' h <;> simp only [runLoop, h]

/-- C5 witness: a response with no code block yields FormatError and
the loop continues with the message logged; a submitting execution
ends the loop with the Submitted pair. -/
theorem run_signal_handling_witness :
    runLoop capsA 1 stA = runLoop capsA 0 (appendUser stApost fmtMsg) ∧
    runLoop capsB 1 stA = .ok (some (("Submitted", "Answer: 42"), appendUser stBpost "Answer: 42")) :=
  ⟨(run_signal_handling capsA stA 0).1 fmtMsg stApost (by rfl),
   (run_signal_handling capsB stA 0).2.2.1 "Answer: 42" stBpost (by rfl)⟩

/-- C6: both timeout signals of the environment layer are normalized
into a single ExecutionTimeoutError whose message is rendered from
the timeout template over the failed action and the recovered
partial output — the command-level timeout uses the decoded partial
output (empty when nothing was recovered), the generic
deadline-exceeded condition uses the empty string. -/
theorem execute_timeout_normalized (caps : Caps) (st : AgentState) (action : Dict)
    (cmd : Value) (hc : dictGet action "action" = some cmd) :
    (∀ po m, caps.envExecute cmd = .timeoutExpired po →
       render_template caps st st.config.timeout_template
           [("action", Value.dict action),
            ("output", Value.str (timeoutOutputOf caps po))] = .ok m →
       execute_action caps st action = .error (.execTimeout m)) ∧
    (∀ m, caps.envExecute cmd = .timeoutErr →
       render_template caps st st.config.timeout_template
           [("action", Value.dict action), ("output", Value.str "")] = .ok m →
       execute_action caps st action = .error (.execTimeout m)) := by
  constructor
  · intro po m henv hrender
    simp only [execute_action, hc, henv, hrender]
  · intro m henv hrender
    simp only [execute_action, hc, henv, hrender]

/-- C6 witness: a command timeout with partial bytes and a generic
deadline condition both produce ExecutionTimeoutError, the first
with the decoded partial output, the second with the empty string. -/
theorem execute_timeout_normalized_witness :
    execute_action capsT stT act3 = .error (.execTimeout "hi") ∧
    execute_action capsT2 stT act3 = .error (.execTimeout "") :=
  ⟨(execute_timeout_normalized capsT stT act3 (Value.str "sleep 99") rfl).1
      (some (.bytes [104, 105])) "hi" rfl (by rfl),
   (execute_timeout_normalized capsT2 stT act3 (Value.str "sleep 99") rfl).2
      "" rfl (by rfl)⟩

/-- C7: whenever execute_action returns an output dict, its output
field is a text string, never a byte sequence: a bytes result from
the environment is decoded with the heuristically detected encoding
(defaulting to utf-8) and replacement fallback, a string result
passes through, and any other shape cannot return successfully.
Decoding itself is total — replacement decoding never raises. -/
theorem execute_output_text (caps : Caps) (st : AgentState) (action : Dict)
    (cmd : Value) (d d' : Dict)
    (hc : dictGet action "action" = some cmd)
    (henv : caps.envExecute cmd = .ok d)
    (hok : execute_action caps st action = .ok d') :
    ∃ s, dictGet d' "output" = some (Value.str s) := by
  simp only [execute_action, hc, henv] at hok
  cases hout : dictGet d "output" with
  | none => rw [hout] at hok; cases hok
  | some v =>
    rw [hout] at hok
    cases v with
    | bytes bs =>
      dsimp only at hok
      cases hf : has_finished
          (dictSet d "output"
            (Value.str (caps.decodeReplace ((caps.detect bs).getD "utf-8") bs))) with
      | error e => rw [hf] at hok; cases hok
      | ok u =>
        rw [hf] at hok
        simp only [Except.ok.injEq] at hok
        subst hok
        exact ⟨_, dictSet_get_some _ hout⟩
    | str s =>
      dsimp only at hok
      cases hf : has_finished d with
      | error e => rw [hf] at hok; cases hok
      | ok u =>
        rw [hf] at hok
        simp only [Except.ok.injEq] at hok
        subst hok
        exact ⟨s, hout⟩
    | int n =>
      dsimp only at hok
      rw [show has_finished d = .error (.fatal (.attrError "lstrip")) by
        simp only [has_finished, hout]] at hok
      cases hok
    | rat q =>
      dsimp only at hok
      rw [show has_finished d = .error (.fatal (.attrError "lstrip")) by
        simp only [has_finished, hout]] at hok
      cases hok
    | list xs =>
      dsimp only at hok
      rw [show has_finished d = .error (.fatal (.attrError "lstrip")) by
        simp only [has_finished, hout]] at hok
      cases hok
    | dict dd =>
      dsimp only at hok
      rw [show has_finished d = .error (.fatal (.attrError "lstrip")) by
        simp only [has_finished, hout]] at hok
      cases hok

/-- C7 witness: a binary environment output is returned decoded as
text. -/
theorem execute_output_text_witness :
    ∃ s, dictGet [("output", Value.str "hi")] "output" = some (Value.str s) :=
  execute_output_text capsC stA [("action", Value.str "cat f")] (Value.str "cat f")
    [("output", Value.bytes [104, 105])] [("output", Value.str "hi")] rfl rfl (by rfl)

/-- C8: referencing an undefined variable during rendering is a
fatal templating error, not a silent blank; and a fatal error raised
inside step is not caught by the run loop: it propagates to the
caller instead of being appended to the conversation. -/
theorem strict_undefined_propagates :
    (∀ caps st kwargs ctx n, buildCtx caps st kwargs = .ok ctx →
       dictGet ctx n = none →
       render_template caps st [TItem.var n] kwargs = .error (.undefinedVar n)) ∧
    (∀ caps fuel st f st', step caps st = .error (.fatal f, st') →
       runLoop caps (fuel + 1) st = .error f) := by
  constructor
  · intro caps st kwargs ctx n hctx hn
    simp only [render_template, hctx, renderTmpl, hn]
  · intro caps fuel st f st' h
    simp only [runLoop, h]

/-- C8 witness: an unknown variable fails the render with
UndefinedError, and an observation template referencing an unknown
variable makes the loop return the fatal error to the caller. -/
theorem strict_undefined_propagates_witness :
    render_template capsA stA [TItem.var "nothere"] [] = .error (.undefinedVar "nothere") ∧
    runLoop capsD 1 stE = .error (.undefinedVar "zzz") :=
  ⟨strict_undefined_propagates.1 capsA stA [] (([] ++ tvOf capsA stA) ++ [])
      "nothere" (by rfl) (by rfl),
   strict_undefined_propagates.2 capsD 0 stE (.undefinedVar "zzz") stE1 (by rfl)⟩

/-- C9: rendering has no hidden state: two render_template calls on
the same template and keyword arguments agree whenever the states
agree on the configuration and the run-scoped extras and the
capabilities supply the same template vars, so repeating a call with
no intervening change yields the identical string. -/
theorem render_template_deterministic (caps caps' : Caps) (st st' : AgentState)
    (t : Tmpl) (kwargs : Dict)
    (h1 : st.config = st'.config) (h2 : st.extras = st'.extras)
    (h3 : caps.envVars = caps'.envVars) (h4 : caps.modelVars = caps'.modelVars) :
    render_template caps st t kwargs = render_template caps' st' t kwargs := by
  unfold render_template buildCtx tvOf
  rw [h1, h2, h3, h4]

/-- C9 witness: the repeated call on identical state. -/
theorem render_template_deterministic_witness :
    render_template capsA stA [TItem.lit "x"] [] =
      render_template capsA stA [TItem.lit "x"] [] :=
  render_template_deterministic capsA capsA stA stA [TItem.lit "x"] []
    rfl rfl rfl rfl

end MiniAgent
